import Mathlib

/-!
Verification development for the Linvisual scene/playback engine.

The `Scene` orchestrator is embedded from `linalg_viz/scene/scene.py`.
Python objects are identified by natural-number ids; object aliasing between
the active and original animation lists is modelled by an id-indexed store.
Real-valued times are modelled by the rationals.  Filenames and window titles
are abstracted as opaque natural-number identifiers, and the external
windowing/GL/image calls (pygame, OpenGL, PIL) are modelled only by their
observable effects (draw-command lists, frame snapshots, a gif-write record),
as the spec treats them as external collaborators.
-/

namespace LinalgViz

/-- Modelled from the spec: `linalg_viz/animation/timeline.py` is not under
`src/`.  Spec 4.1: a Timeline is a single elapsed-time counter with a
tri-state mode {stopped, playing, paused}. -/
inductive TimelineMode
  | stopped
  | playing
  | paused
deriving DecidableEq

/-- Modelled from the spec: the Timeline state (spec 3 and 4.1). -/
structure Timeline where
  current_time : ℚ
  mode : TimelineMode
deriving DecidableEq

/-- Modelled from the spec: play() takes stopped/paused to playing and is a
no-op when already playing; elapsed time is untouched. -/
def Timeline.play (t : Timeline) : Timeline :=
  { t with mode := TimelineMode.playing }

/-- Modelled from the spec: stop() takes any state to stopped and resets
elapsed time to 0. -/
def Timeline.stop (_t : Timeline) : Timeline :=
  { current_time := 0, mode := TimelineMode.stopped }

/-- Modelled from the spec: update(dt) advances elapsed time by dt iff the
timeline is playing, and is a no-op otherwise. -/
def Timeline.update (t : Timeline) (dt : ℚ) : Timeline :=
  if t.mode = TimelineMode.playing then
    { t with current_time := t.current_time + dt }
  else t

/-- Modelled from the spec: `linalg_viz/animation/animator.py` is not under
`src/`.  The animation variants are VectorAnimation (whose end target is an
entity, referenced by `scene.py` as `anim._end`) and GridTransformAnimation
(spec 2 and 4.2); the geometric interpolation payload is irrelevant to the
claims and is omitted. -/
inductive AnimKind
  | vector (target : Nat)
  | gridTransform
deriving DecidableEq

/-- Modelled from the spec: an Animation has a fixed duration and an
elapsed-progress counter (spec 3 and 4.2). -/
structure Animation where
  kind : AnimKind
  duration : ℚ
  elapsed : ℚ
deriving DecidableEq

/-- Modelled from the spec: `isFinished` is the pure predicate
progress ≥ duration. -/
def Animation.is_finished (a : Animation) : Bool :=
  decide (a.duration ≤ a.elapsed)

/-- Modelled from the spec: reset() returns any state to idle (progress 0). -/
def Animation.reset (a : Animation) : Animation :=
  { a with elapsed := 0 }

/-- Modelled from the spec: update(dt) adds dt to progress, clamped at the
duration (and never clamped below 0). -/
def Animation.update (a : Animation) (dt : ℚ) : Animation :=
  { a with elapsed := min (a.elapsed + dt) a.duration }

/-- Draw commands issued by `Scene._render_2d` / `Scene._render_3d` to the
external render surface, in issue order.  Each constructor corresponds to one
renderer call in the source; `flip` is the `pygame.display.flip()` buffer
swap. -/
inductive DrawCmd
  | clear
  | setup2d
  | setup3d
  | grid
  | transformedGrid (anim : Nat)
  | vectorStatic (obj : Nat)
  | vectorAnimated (obj : Nat) (anim : Nat)
  | controlsHint (paused : Bool)
  | flip
deriving DecidableEq

/-- The state of `Scene` (fields of `Scene.__init__`).  Entities and
animations are identified by natural-number ids; `store` is the heap of
Animation objects shared, by id, between the active list `anims`
(`self._animations`) and the original list `orig_anims`
(`self._original_animations`).  `backref` models each entity id's
`_scene`-is-this-scene back-reference.  A captured frame is the list of draw
commands the frame was rendered with. -/
structure SceneState where
  dim : Nat
  width : Int
  height : Int
  objects : List Nat
  backref : Nat → Bool
  anims : List Nat
  orig_anims : List Nat
  store : Nat → Animation
  timeline : Timeline
  paused : Bool
  recording : Bool
  frames : List (List DrawCmd)
  show_grid : Bool
  step_size : ℚ

/-- Pointwise update of the animation store at one id (a Python in-place
mutation of the shared Animation object). -/
def setStore (st : Nat → Animation) (i : Nat) (a : Animation) : Nat → Animation :=
  fun j => if j = i then a else st j

/-- Configuration errors raised by `Scene.__init__` (the source raises
ValueError when the dimension is not 2 or 3). -/
inductive ConfigError
  | invalidDim
deriving DecidableEq

/-- A fresh scene body as initialised by `Scene.__init__` for dim 2, before
dimension dispatch: empty entity list, empty animation lists, stopped
timeline at 0, not paused, not recording, no frames, grid shown, keyboard
step size 0.05. -/
def scene0 : SceneState :=
  { dim := 2
    width := 800
    height := 600
    objects := []
    backref := fun _ => false
    anims := []
    orig_anims := []
    store := fun _ => { kind := AnimKind.gridTransform, duration := 0, elapsed := 0 }
    timeline := { current_time := 0, mode := TimelineMode.stopped }
    paused := false
    recording := false
    frames := []
    show_grid := true
    step_size := 1 / 20 }

/-- Scene.__init__: raises a configuration error iff `dim not in (2, 3)`;
the viewport size is stored unvalidated (the camera and renderer
constructors, absent from `src/`, are modelled from spec 4.3 / 3, which
define them as pure state with no error conditions). -/
def mkScene (dim : Nat) (width height : Int) : Except ConfigError SceneState :=
  if dim = 2 ∨ dim = 3 then
    Except.ok { scene0 with dim := dim, width := width, height := height }
  else
    Except.error ConfigError.invalidDim

/-- Scene.add: for each argument, append it to the entity list if not already
present, and set its scene back-reference. -/
def SceneState.add (s : SceneState) (objs : List Nat) : SceneState :=
  objs.foldl
    (fun st o =>
      if o ∈ st.objects then st
      else { st with
              objects := st.objects ++ [o]
              backref := fun j => if j = o then true else st.backref j })
    s

/-- Scene.remove: if the entity is present, delete it from the entity list
and clear its scene back-reference; otherwise do nothing.  The source
returns `self` in both cases. -/
def SceneState.remove (s : SceneState) (o : Nat) : SceneState :=
  if o ∈ s.objects then
    { s with
        objects := s.objects.erase o
        backref := fun j => if j = o then false else s.backref j }
  else s

/-- Scene._add_animation: appends the same Animation object to both the
active and the original list (here: stores the object at id `i` and appends
`i` to both id lists). -/
def SceneState.add_animation (s : SceneState) (i : Nat) (a : Animation) : SceneState :=
  { s with
      store := setStore s.store i a
      anims := s.anims ++ [i]
      orig_anims := s.orig_anims ++ [i] }

/-- The first loop of Scene._replay / Scene._step_backward:
`for anim in self._animations: anim.reset()`. -/
def resetAll (ids : List Nat) (st : Nat → Animation) : Nat → Animation :=
  ids.foldl (fun acc i => setStore acc i ((acc i).reset)) st

/-- The second loop of Scene._replay / Scene._step_backward:
`for anim in self._original_animations: if anim not in self._animations:
anim.reset(); self._animations.append(anim)`.  Membership is tested against
the evolving active list, exactly as in the source. -/
def restoreOriginals :
    List Nat → (Nat → Animation) → List Nat → (Nat → Animation) × List Nat
  | [], st, acc => (st, acc)
  | i :: rest, st, acc =>
      if i ∈ acc then restoreOriginals rest st acc
      else restoreOriginals rest (setStore st i ((st i).reset)) (acc ++ [i])

/-- Scene._replay: reset every active animation, re-add (reset) every
original animation missing from the active list, stop then play the
timeline, clear the paused flag. -/
def SceneState.replay (s : SceneState) : SceneState :=
  let st1 := resetAll s.anims s.store
  let p := restoreOriginals s.orig_anims st1 s.anims
  { s with
      store := p.1
      anims := p.2
      timeline := (s.timeline.stop).play
      paused := false }

/-- The animation loop of Scene._step:
`for anim in self._animations: anim.update(dt)`. -/
def updateAnims : List Nat → (Nat → Animation) → ℚ → (Nat → Animation)
  | [], st, _ => st
  | i :: rest, st, dt => updateAnims rest (setStore st i ((st i).update dt)) dt

/-- Scene._step(dt): advance the timeline by dt, then advance every active
animation by dt.  No removal of finished animations happens here. -/
def SceneState.step (s : SceneState) (dt : ℚ) : SceneState :=
  { s with
      timeline := s.timeline.update dt
      store := updateAnims s.anims s.store dt }

/-- The animation loop of Scene._update: advance each active animation and
collect (in encounter order) those that report finished right after their
own update, exactly as the source appends to its `finished` list. -/
def updatePass :
    List Nat → (Nat → Animation) → ℚ → List Nat → (Nat → Animation) × List Nat
  | [], st, _, fin => (st, fin)
  | i :: rest, st, dt, fin =>
      let a := (st i).update dt
      updatePass rest (setStore st i a) dt
        (if a.is_finished then fin ++ [i] else fin)

/-- Scene._update(dt): a no-op while paused; otherwise advance the timeline,
advance every active animation, then remove each collected finished
animation from the active list (`list.remove`, first occurrence). -/
def SceneState.update (s : SceneState) (dt : ℚ) : SceneState :=
  if s.paused then s
  else
    let p := updatePass s.anims s.store dt []
    { s with
        timeline := s.timeline.update dt
        store := p.1
        anims := p.2.foldl (fun l i => l.erase i) s.anims }

/-- Scene._get_total_progress: the first active animation's elapsed time, or
the timeline's current time when no animation is active. -/
def SceneState.get_total_progress (s : SceneState) : ℚ :=
  match s.anims with
  | [] => s.timeline.current_time
  | i :: _ => (s.store i).elapsed

/-- Scene._step_backward: compute the clamped target progress, reset and
restore the animation lists exactly as in _replay, stop the timeline, replay
forward to the target via _step when it is positive, and set paused. -/
def SceneState.step_backward (s : SceneState) : SceneState :=
  let current := s.get_total_progress
  let target := max 0 (current - s.step_size)
  let st1 := resetAll s.anims s.store
  let p := restoreOriginals s.orig_anims st1 s.anims
  let s1 : SceneState :=
    { s with store := p.1, anims := p.2, timeline := s.timeline.stop }
  let s2 := if 0 < target then s1.step target else s1
  { s2 with paused := true }

/-- The per-animation test of the dispatch loop in Scene._render_2d /
_render_3d: `isinstance(anim, VectorAnimation) and anim._end is obj`. -/
def vecTargets (st : Nat → Animation) (o : Nat) (i : Nat) : Bool :=
  match (st i).kind with
  | AnimKind.vector t => t == o
  | AnimKind.gridTransform => false

/-- The search for `active_anim` in Scene._render_2d / _render_3d: the first
active animation that is a VectorAnimation targeting the entity. -/
def findActiveVecAnim (s : SceneState) (o : Nat) : Option Nat :=
  s.anims.find? (vecTargets s.store o)

/-- The per-entity dispatch of Scene._render_2d / _render_3d: animated draw
if `active_anim` exists and is not finished, else static draw. -/
def drawObj (s : SceneState) (o : Nat) : DrawCmd :=
  match findActiveVecAnim s o with
  | some i =>
      if (s.store i).is_finished then DrawCmd.vectorStatic o
      else DrawCmd.vectorAnimated o i
  | none => DrawCmd.vectorStatic o

/-- The grid-animation test of the render loop:
`isinstance(anim, GridTransformAnimation)`. -/
def isGridAnim (st : Nat → Animation) (i : Nat) : Bool :=
  match (st i).kind with
  | AnimKind.gridTransform => true
  | AnimKind.vector _ => false

/-- Scene._render_2d, as the ordered list of issued draw commands: clear,
2d projection setup, the static grid when grid display is on, one
transformed-grid draw per active GridTransformAnimation, one draw per entity
in insertion order, the controls hint, and the final buffer flip. -/
def SceneState.render2d (s : SceneState) : List DrawCmd :=
  [DrawCmd.clear, DrawCmd.setup2d]
    ++ (if s.show_grid then [DrawCmd.grid] else [])
    ++ (s.anims.filter (isGridAnim s.store)).map DrawCmd.transformedGrid
    ++ s.objects.map (drawObj s)
    ++ [DrawCmd.controlsHint s.paused, DrawCmd.flip]

/-- Scene._render_3d: identical dispatch structure to _render_2d with the 3d
projection setup. -/
def SceneState.render3d (s : SceneState) : List DrawCmd :=
  [DrawCmd.clear, DrawCmd.setup3d]
    ++ (if s.show_grid then [DrawCmd.grid] else [])
    ++ (s.anims.filter (isGridAnim s.store)).map DrawCmd.transformedGrid
    ++ s.objects.map (drawObj s)
    ++ [DrawCmd.controlsHint s.paused, DrawCmd.flip]

/-- Scene._render: dimension dispatch to _render_2d or _render_3d. -/
def SceneState.render (s : SceneState) : List DrawCmd :=
  if s.dim = 2 then s.render2d else s.render3d

/-- Scene._capture_frame: when recording, append a snapshot of the frame
just rendered (modelled as the current render-command list) to the frame
buffer; otherwise do nothing. -/
def SceneState.capture_frame (s : SceneState) : SceneState :=
  if s.recording then { s with frames := s.frames ++ [s.render] } else s

/-- The observable effect of `Scene._save_gif`'s write: target filename
(abstracted to an id), per-frame duration `int(1000 / fps)` in milliseconds,
the written frames, and the loop-forever flag (`loop=0` in the source).  The
reported frame count is the length of `frames`. -/
structure GifWrite where
  filename : Nat
  duration_ms : Nat
  frames : List (List DrawCmd)
  loopForever : Bool
deriving DecidableEq

/-- Scene._save_gif: a silent no-op when no frames were captured; otherwise
writes all captured frames at `int(1000 / fps)` ms per frame and reports the
path and frame count.  The scene state is untouched in both cases. -/
def SceneState.save_gif (s : SceneState) (filename : Nat) (fps : Nat) :
    SceneState × Option GifWrite :=
  if s.frames = [] then (s, none)
  else
    (s, some { filename := filename
               duration_ms := 1000 / fps
               frames := s.frames
               loopForever := true })

/-- The common start of Scene.record and Scene.record_play: set the
recording flag, clear the frame buffer, and play the timeline. -/
def SceneState.recStart (s : SceneState) : SceneState :=
  { s with recording := true, frames := [], timeline := s.timeline.play }

/-- One iteration of the capture loops of Scene.record / Scene.record_play:
`self._update(frame_time); self._render(); self._capture_frame()` (the
render itself has no state effect; the capture snapshots it). -/
def recordBody (dt : ℚ) (s : SceneState) : SceneState :=
  (s.update dt).capture_frame

/-- Scene.record: capture `int(duration * fps)` frames at the fixed delta
1 / fps, then save the gif; the recording flag is cleared at the end and the
frame buffer is left as it is. -/
def SceneState.record (s : SceneState) (filename : Nat) (duration : ℚ) (fps : Nat) :
    SceneState × Option GifWrite :=
  let s1 := s.recStart
  let total := ⌊duration * (fps : ℚ)⌋.toNat
  let s2 := (recordBody (1 / (fps : ℚ)))^[total] s1
  let g := s2.save_gif filename fps
  ({ g.1 with recording := false }, g.2)

/-- The `while self._animations and frame_count < max_frames` loop of
Scene.record_play, with the remaining frame budget as fuel; returns the
state after the loop together with the number of iterations executed. -/
def recordPlayIter (dt : ℚ) : Nat → SceneState → SceneState × Nat
  | 0, s => (s, 0)
  | Nat.succ n, s =>
      if s.anims = [] then (s, 0)
      else
        let r := recordPlayIter dt n (recordBody dt s)
        (r.1, r.2 + 1)

/-- The trailing loop of Scene.record_play: `for _ in range(fps)` capture a
frame without advancing state. -/
def extraIter : Nat → SceneState → SceneState
  | 0, s => s
  | Nat.succ n, s => extraIter n s.capture_frame

/-- Scene.record_play: capture at the fixed delta 1 / fps until the active
animation list empties or the 300-frame safety cap is hit, capture one extra
second (fps frames) of the final static state, then save the gif and clear
the recording flag. -/
def SceneState.record_play (s : SceneState) (filename : Nat) (fps : Nat) :
    SceneState × Option GifWrite :=
  let s1 := s.recStart
  let r := recordPlayIter (1 / (fps : ℚ)) 300 s1
  let s2 := extraIter fps r.1
  let g := s2.save_gif filename fps
  ({ g.1 with recording := false }, g.2)

/-! Basic lemmas about the animation store and the reset/restore loops. -/

theorem Animation.reset_elapsed (a : Animation) : a.reset.elapsed = 0 := rfl

theorem Animation.reset_reset (a : Animation) : a.reset.reset = a.reset := rfl

theorem resetAll_nil (st : Nat → Animation) : resetAll [] st = st := rfl

theorem resetAll_cons (i : Nat) (rest : List Nat) (st : Nat → Animation) :
    resetAll (i :: rest) st = resetAll rest (setStore st i ((st i).reset)) := rfl

theorem resetAll_apply :
    ∀ (ids : List Nat) (st : Nat → Animation) (j : Nat),
      resetAll ids st j = if j ∈ ids then (st j).reset else st j
  | [], st, j => by simp [resetAll]
  | i :: rest, st, j => by
      rw [resetAll_cons, resetAll_apply rest]
      by_cases hj : j = i
      · subst hj
        by_cases hr : j ∈ rest <;>
          simp [hr, setStore, Animation.reset_reset]
      · by_cases hr : j ∈ rest <;>
          simp [hr, hj, setStore]

theorem restoreOriginals_append_only :
    ∀ (orig : List Nat) (st : Nat → Animation) (acc : List Nat),
      ∃ l, (restoreOriginals orig st acc).2 = acc ++ l
  | [], st, acc => ⟨[], by simp [restoreOriginals]⟩
  | i :: rest, st, acc => by
      unfold restoreOriginals
      by_cases h : i ∈ acc
      · simpa [h] using restoreOriginals_append_only rest st acc
      · obtain ⟨l, hl⟩ :=
          restoreOriginals_append_only rest (setStore st i ((st i).reset)) (acc ++ [i])
        exact ⟨i :: l, by simp [h, hl]⟩

theorem restoreOriginals_mem_acc (orig : List Nat) (st : Nat → Animation)
    (acc : List Nat) (j : Nat) (hj : j ∈ acc) :
    j ∈ (restoreOriginals orig st acc).2 := by
  obtain ⟨l, hl⟩ := restoreOriginals_append_only orig st acc
  rw [hl]
  exact List.mem_append_left _ hj

theorem restoreOriginals_mem_orig :
    ∀ (orig : List Nat) (st : Nat → Animation) (acc : List Nat) (j : Nat),
      j ∈ orig → j ∈ (restoreOriginals orig st acc).2
  | [], _, _, _, hj => by simp at hj
  | i :: rest, st, acc, j, hj => by
      unfold restoreOriginals
      by_cases h : i ∈ acc
      · rcases List.mem_cons.mp hj with hji | hjr
        · subst hji
          simp only [h, if_true]
          exact restoreOriginals_mem_acc rest st acc j h
        · simpa [h] using restoreOriginals_mem_orig rest st acc j hjr
      · rcases List.mem_cons.mp hj with hji | hjr
        · subst hji
          simp only [h, if_false]
          exact restoreOriginals_mem_acc rest _ (acc ++ [j]) j (by simp)
        · simpa [h] using
            restoreOriginals_mem_orig rest (setStore st i ((st i).reset)) (acc ++ [i]) j hjr

theorem restoreOriginals_elapsed :
    ∀ (orig : List Nat) (st : Nat → Animation) (acc : List Nat),
      (∀ j ∈ acc, (st j).elapsed = 0) →
      ∀ j ∈ (restoreOriginals orig st acc).2,
        ((restoreOriginals orig st acc).1 j).elapsed = 0
  | [], st, acc, hinv, j, hj => by
      simpa [restoreOriginals] using hinv j (by simpa [restoreOriginals] using hj)
  | i :: rest, st, acc, hinv, j, hj => by
      unfold restoreOriginals at hj ⊢
      by_cases h : i ∈ acc
      · simp only [h, if_true] at hj ⊢
        exact restoreOriginals_elapsed rest st acc hinv j hj
      · simp only [h, if_false] at hj ⊢
        refine restoreOriginals_elapsed rest _ (acc ++ [i]) ?_ j hj
        intro k hk
        rcases List.mem_append.mp hk with hk | hk
        · have hki : k ≠ i := fun he => h (he ▸ hk)
          simpa [setStore, hki] using hinv k hk
        · have hki : k = i := by simpa using hk
          subst hki
          simp [setStore, Animation.reset_elapsed]

theorem restoreOriginals_nodup :
    ∀ (orig : List Nat) (st : Nat → Animation) (acc : List Nat),
      acc.Nodup → (restoreOriginals orig st acc).2.Nodup
  | [], _, _, h => by simpa [restoreOriginals] using h
  | i :: rest, st, acc, h => by
      unfold restoreOriginals
      by_cases hi : i ∈ acc
      · simpa [hi] using restoreOriginals_nodup rest st acc h
      · simp only [hi, if_false]
        refine restoreOriginals_nodup rest _ (acc ++ [i]) ?_
        simpa [List.nodup_append] using ⟨h, hi⟩

theorem restoreOriginals_filter :
    ∀ (orig : List Nat) (st : Nat → Animation) (acc : List Nat),
      orig.Nodup →
      (restoreOriginals orig st acc).2
        = acc ++ orig.filter (fun i => decide (i ∉ acc))
  | [], _, acc, _ => by simp [restoreOriginals]
  | i :: rest, st, acc, h => by
      have hrest : rest.Nodup := (List.nodup_cons.mp h).2
      have hir : i ∉ rest := (List.nodup_cons.mp h).1
      unfold restoreOriginals
      by_cases hi : i ∈ acc
      · simp only [hi, if_true]
        rw [restoreOriginals_filter rest st acc hrest]
        simp [hi]
      · simp only [hi, if_false]
        rw [restoreOriginals_filter rest (setStore st i ((st i).reset)) (acc ++ [i]) hrest]
        have hfeq :
            rest.filter (fun k => decide (k ∉ acc ++ [i]))
              = rest.filter (fun k => decide (k ∉ acc)) := by
          apply List.filter_congr
          intro k hk
          have hki : k ≠ i := fun he => hir (he ▸ hk)
          simp [hki]
        rw [hfeq]
        simp [hi]

theorem restoreOriginals_store :
    ∀ (orig : List Nat) (st : Nat → Animation) (acc : List Nat) (j : Nat),
      (restoreOriginals orig st acc).1 j = st j ∨
      (restoreOriginals orig st acc).1 j = (st j).reset
  | [], _, _, _ => Or.inl rfl
  | i :: rest, st, acc, j => by
      unfold restoreOriginals
      by_cases hi : i ∈ acc
      · simpa [hi] using restoreOriginals_store rest st acc j
      · simp only [hi, if_false]
        rcases restoreOriginals_store rest (setStore st i ((st i).reset)) (acc ++ [i]) j
          with h | h <;> rw [h] <;> by_cases hj : j = i
        · subst hj
          exact Or.inr (by simp [setStore])
        · exact Or.inl (by simp [setStore, hj])
        · subst hj
          exact Or.inr (by simp [setStore, Animation.reset_reset])
        · exact Or.inr (by simp [setStore, hj])

theorem resetAll_elapsed (ids : List Nat) (st : Nat → Animation) :
    ∀ j ∈ ids, (resetAll ids st j).elapsed = 0 := by
  intro j hj
  rw [resetAll_apply]
  simp [hj, Animation.reset_elapsed]

theorem resetAll_duration (ids : List Nat) (st : Nat → Animation) (j : Nat) :
    (resetAll ids st j).duration = (st j).duration := by
  rw [resetAll_apply]
  split <;> rfl

theorem restoreOriginals_duration (orig : List Nat) (st : Nat → Animation)
    (acc : List Nat) (j : Nat) :
    ((restoreOriginals orig st acc).1 j).duration = (st j).duration := by
  rcases restoreOriginals_store orig st acc j with h | h <;>
    simp [h, Animation.reset]

theorem updateAnims_apply :
    ∀ (ids : List Nat) (st : Nat → Animation) (dt : ℚ) (j : Nat),
      ids.Nodup →
      updateAnims ids st dt j = if j ∈ ids then (st j).update dt else st j
  | [], st, dt, j, _ => by simp [updateAnims]
  | i :: rest, st, dt, j, h => by
      have hrest : rest.Nodup := (List.nodup_cons.mp h).2
      have hir : i ∉ rest := (List.nodup_cons.mp h).1
      rw [updateAnims, updateAnims_apply rest _ dt j hrest]
      by_cases hj : j = i
      · subst hj
        simp [hir, setStore]
      · by_cases hr : j ∈ rest <;> simp [hr, hj, setStore]

/-- Fields of the scene preserved by a single `_step`. -/
theorem step_fields (s : SceneState) (dt : ℚ) :
    (s.step dt).anims = s.anims ∧
    (s.step dt).orig_anims = s.orig_anims ∧
    (s.step dt).step_size = s.step_size ∧
    (s.step dt).store = updateAnims s.anims s.store dt :=
  ⟨rfl, rfl, rfl, rfl⟩

/-- During k forward keyboard steps from a fresh first animation, the first
animation accumulates exactly k step sizes of progress as long as the total
stays within its duration. -/
theorem step_iterate_elapsed (s : SceneState) (i : Nat) (rest : List Nat)
    (hanims : s.anims = i :: rest) (hnd : s.anims.Nodup)
    (h0 : (s.store i).elapsed = 0) (hs : 0 ≤ s.step_size) :
    ∀ k : Nat, (k : ℚ) * s.step_size ≤ (s.store i).duration →
      ((fun st : SceneState => st.step st.step_size)^[k] s).anims = s.anims ∧
      ((fun st : SceneState => st.step st.step_size)^[k] s).orig_anims = s.orig_anims ∧
      ((fun st : SceneState => st.step st.step_size)^[k] s).step_size = s.step_size ∧
      (((fun st : SceneState => st.step st.step_size)^[k] s).store i).duration
        = (s.store i).duration ∧
      (((fun st : SceneState => st.step st.step_size)^[k] s).store i).elapsed
        = (k : ℚ) * s.step_size := by
  intro k
  induction k with
  | zero =>
      intro _
      refine ⟨rfl, rfl, rfl, rfl, ?_⟩
      simpa using h0
  | succ k ih =>
      intro hk
      have hk' : (k : ℚ) * s.step_size ≤ (s.store i).duration := by
        refine le_trans ?_ hk
        have : (k : ℚ) ≤ (k : ℚ) + 1 := by linarith
        push_cast
        nlinarith
      obtain ⟨ha, ho, hss, hdur, hel⟩ := ih hk'
      rw [Function.iterate_succ_apply']
      set sk := (fun st : SceneState => st.step st.step_size)^[k] s with hsk
      have hmem : i ∈ sk.anims := by rw [ha, hanims]; exact List.mem_cons_self _ _
      have hndk : sk.anims.Nodup := by rw [ha]; exact hnd
      have hstore : (sk.step sk.step_size).store i = (sk.store i).update sk.step_size := by
        rw [(step_fields sk sk.step_size).2.2.2, updateAnims_apply _ _ _ _ hndk]
        simp [hmem]
      refine ⟨by rw [(step_fields sk sk.step_size).1, ha],
        by rw [(step_fields sk sk.step_size).2.1, ho],
        by rw [(step_fields sk sk.step_size).2.2.1, hss],
        by rw [hstore]; simpa [Animation.update] using hdur, ?_⟩
      rw [hstore]
      simp only [Animation.update, hss, hel, hdur]
      have hsum : (k : ℚ) * s.step_size + s.step_size = ((k : ℚ) + 1) * s.step_size := by
        ring
      rw [hsum]
      have : ((k : ℚ) + 1) * s.step_size ≤ (s.store i).duration := by push_cast at hk ⊢; linarith
      push_cast
      exact min_eq_left this

/-- Characterisation of the aggregate progress right after a backward step:
the restored active list decides which branch of _get_total_progress fires;
a positive clamped target is replayed into the restored animations via the
_step loop, while an otherwise-stopped timeline reads zero. -/
theorem step_backward_progress (s : SceneState) :
    s.step_backward.get_total_progress
      = (match (restoreOriginals s.orig_anims (resetAll s.anims s.store) s.anims).2 with
         | [] => 0
         | i :: _ =>
             if 0 < max 0 (s.get_total_progress - s.step_size) then
               (updateAnims
                 (restoreOriginals s.orig_anims (resetAll s.anims s.store) s.anims).2
                 (restoreOriginals s.orig_anims (resetAll s.anims s.store) s.anims).1
                 (max 0 (s.get_total_progress - s.step_size)) i).elapsed
             else
               ((restoreOriginals s.orig_anims (resetAll s.anims s.store) s.anims).1 i).elapsed) := by
  unfold SceneState.step_backward
  by_cases hpos : 0 < max 0 (s.get_total_progress - s.step_size)
  · simp only [hpos, if_true]
    unfold SceneState.get_total_progress SceneState.step
    rcases hcase : (restoreOriginals s.orig_anims (resetAll s.anims s.store) s.anims).2
      with _ | ⟨j, tail⟩
    · simp [hcase, Timeline.update, Timeline.stop]
    · simp [hcase]
  · simp only [hpos, if_false]
    unfold SceneState.get_total_progress
    rcases hcase : (restoreOriginals s.orig_anims (resetAll s.anims s.store) s.anims).2
      with _ | ⟨j, tail⟩
    · simp [hcase, Timeline.stop]
    · simp [hcase, hpos]

/-- C4: with at least one active animation whose progress is fresh (zero),
stepping forward k times by the fixed step size (k steps staying within the
first animation's duration) and then stepping backward once leaves the
aggregate progress at exactly (k - 1) step sizes; and stepping backward when
the aggregate progress is at or below one step size clamps it at zero. -/
theorem C4_step_backward_left_inverse :
    (∀ (s : SceneState) (i : Nat) (rest : List Nat) (k : Nat),
      s.anims = i :: rest →
      s.anims.Nodup →
      (s.store i).elapsed = 0 →
      0 < s.step_size →
      1 ≤ k →
      (k : ℚ) * s.step_size ≤ (s.store i).duration →
      (((fun st : SceneState => st.step st.step_size)^[k] s).step_backward).get_total_progress
        = ((k : ℚ) - 1) * s.step_size) ∧
    (∀ s : SceneState, s.get_total_progress ≤ s.step_size →
      s.step_backward.get_total_progress = 0) := by
  constructor
  · intro s i rest k hanims hnd h0 hs hk1 hdur
    obtain ⟨ha, ho, hss, hd, hel⟩ :=
      step_iterate_elapsed s i rest hanims hnd h0 (le_of_lt hs) k hdur
    set sk := (fun st : SceneState => st.step st.step_size)^[k] s with hsk
    have hprog : sk.get_total_progress = (k : ℚ) * s.step_size := by
      unfold SceneState.get_total_progress
      rw [ha, hanims]
      exact hel
    have h1k : (1 : ℚ) ≤ (k : ℚ) := by exact_mod_cast hk1
    have ht0 : (0 : ℚ) ≤ ((k : ℚ) - 1) * s.step_size := by nlinarith
    have htarget : max 0 (sk.get_total_progress - sk.step_size)
        = ((k : ℚ) - 1) * s.step_size := by
      rw [hprog, hss]
      have hr : (k : ℚ) * s.step_size - s.step_size = ((k : ℚ) - 1) * s.step_size := by
        ring
      rw [hr]
      exact max_eq_right ht0
    have htle : ((k : ℚ) - 1) * s.step_size ≤ (s.store i).duration := by nlinarith
    rw [step_backward_progress sk]
    set st1 := resetAll sk.anims sk.store with hst1
    set p := restoreOriginals sk.orig_anims st1 sk.anims with hp
    obtain ⟨l, hl⟩ := restoreOriginals_append_only sk.orig_anims st1 sk.anims
    rw [← hp] at hl
    have hp2 : p.2 = i :: (rest ++ l) := by
      rw [hl, ha, hanims]
      simp
    have hzero : (p.1 i).elapsed = 0 := by
      rw [hp]
      exact restoreOriginals_elapsed sk.orig_anims st1 sk.anims
        (resetAll_elapsed sk.anims sk.store) i
        (restoreOriginals_mem_acc _ _ _ i (by rw [ha, hanims]; exact List.mem_cons_self _ _))
    have hpdur : (p.1 i).duration = (s.store i).duration := by
      rw [hp, restoreOriginals_duration, hst1, resetAll_duration]
      exact hd
    have hpnd : p.2.Nodup := by
      rw [hp]
      exact restoreOriginals_nodup sk.orig_anims st1 sk.anims (by rw [ha]; exact hnd)
    have hpnd2 : (i :: (rest ++ l)).Nodup := hp2 ▸ hpnd
    rw [hp2, htarget]
    simp only
    by_cases hpos : 0 < ((k : ℚ) - 1) * s.step_size
    · simp only [hpos, if_true]
      rw [updateAnims_apply _ _ _ _ hpnd2]
      simp only [List.mem_cons_self, if_true, Animation.update, hzero, zero_add]
      rw [hpdur]
      exact min_eq_left htle
    · simp only [hpos, if_false]
      have hkz : ((k : ℚ) - 1) * s.step_size = 0 :=
        le_antisymm (not_lt.mp hpos) ht0
      rw [hkz]
      exact hzero
  · intro s hle
    have htarget : max 0 (s.get_total_progress - s.step_size) = 0 :=
      max_eq_left (sub_nonpos.mpr hle)
    rw [step_backward_progress s]
    set st1 := resetAll s.anims s.store with hst1
    set p := restoreOriginals s.orig_anims st1 s.anims with hp
    rcases hcase : p.2 with _ | ⟨j, tail⟩
    · simp only [hcase]
    · simp only [hcase, htarget, lt_irrefl, if_false]
      have hj : j ∈ p.2 := by
        rw [hcase]
        exact List.mem_cons_self _ _
      rw [hp] at hj ⊢
      exact restoreOriginals_elapsed s.orig_anims st1 s.anims
        (resetAll_elapsed s.anims s.store) j hj

/-- A concrete scene for the C4 witness: one registered vector animation
(id 1, duration 1, fresh progress). -/
def sceneC4 : SceneState :=
  scene0.add_animation 1 { kind := AnimKind.vector 10, duration := 1, elapsed := 0 }

/-- Witness for C4: one animation of duration 1 and fresh progress, step
size 1/20; stepping forward twice then backward once leaves aggregate
progress at exactly one step size, and on a fresh scene (progress zero, at
or below one step) stepping backward clamps at zero. -/
theorem C4_step_backward_left_inverse_witness :
    ((2 : ℚ) * sceneC4.step_size ≤ (sceneC4.store 1).duration ∧
      (((fun st : SceneState => st.step st.step_size)^[2] sceneC4).step_backward).get_total_progress
        = ((2 : ℚ) - 1) * sceneC4.step_size) ∧
    (scene0.get_total_progress ≤ scene0.step_size ∧
      scene0.step_backward.get_total_progress = 0) := by
  constructor
  · refine ⟨by norm_num [sceneC4, scene0, SceneState.add_animation, setStore], ?_⟩
    exact C4_step_backward_left_inverse.1 sceneC4 1 [] 2 rfl (by decide) rfl
      (by norm_num [sceneC4, scene0, SceneState.add_animation, setStore])
      (by norm_num)
      (by norm_num [sceneC4, scene0, SceneState.add_animation, setStore])
  · refine ⟨?_, ?_⟩
    · norm_num [scene0, SceneState.get_total_progress]
    · exact C4_step_backward_left_inverse.2 scene0
        (by norm_num [scene0, SceneState.get_total_progress])

/-! Lemmas about the capture loops. -/

theorem update_recording (s : SceneState) (dt : ℚ) :
    (s.update dt).recording = s.recording := by
  unfold SceneState.update
  split <;> rfl

theorem update_frames (s : SceneState) (dt : ℚ) :
    (s.update dt).frames = s.frames := by
  unfold SceneState.update
  split <;> rfl

theorem capture_frame_recording (s : SceneState) :
    s.capture_frame.recording = s.recording := by
  unfold SceneState.capture_frame
  split <;> rfl

theorem render_frames_congr (s : SceneState) (x : List (List DrawCmd)) :
    SceneState.render { s with frames := x } = s.render := rfl

theorem capture_frame_of_recording (s : SceneState) (h : s.recording = true) :
    s.capture_frame = { s with frames := s.frames ++ [s.render] } := by
  unfold SceneState.capture_frame
  simp [h]

theorem recordBody_recording (dt : ℚ) (s : SceneState) :
    (recordBody dt s).recording = s.recording := by
  unfold recordBody
  rw [capture_frame_recording, update_recording]

theorem recordBody_frames_length (dt : ℚ) (s : SceneState) (h : s.recording = true) :
    (recordBody dt s).frames.length = s.frames.length + 1 := by
  unfold recordBody
  rw [capture_frame_of_recording _ (by rw [update_recording]; exact h)]
  simp [update_frames]

theorem recordBody_iterate (dt : ℚ) (n : Nat) (s : SceneState) (h : s.recording = true) :
    ((recordBody dt)^[n] s).recording = true ∧
    ((recordBody dt)^[n] s).frames.length = s.frames.length + n := by
  induction n generalizing s with
  | zero => simpa using h
  | succ n ih =>
      rw [Function.iterate_succ_apply]
      obtain ⟨h1, h2⟩ := ih (recordBody dt s) (by rw [recordBody_recording]; exact h)
      refine ⟨h1, ?_⟩
      rw [h2, recordBody_frames_length dt s h]
      omega

theorem extraIter_spec :
    ∀ (k : Nat) (s : SceneState), s.recording = true →
      extraIter k s = { s with frames := s.frames ++ List.replicate k s.render }
  | 0, s, _ => by simp [extraIter]
  | k + 1, s, h => by
      rw [extraIter,
        extraIter_spec k _ (by rw [capture_frame_recording]; exact h),
        capture_frame_of_recording s h]
      simp [render_frames_congr, List.replicate_succ]

theorem save_gif_fst (s : SceneState) (fname fps : Nat) :
    (s.save_gif fname fps).1 = s := by
  unfold SceneState.save_gif
  split <;> rfl

theorem save_gif_snd_some (s : SceneState) (fname fps : Nat) (h : s.frames ≠ []) :
    (s.save_gif fname fps).2.isSome = true := by
  unfold SceneState.save_gif
  simp [h]

theorem recordPlayIter_spec (dt : ℚ) :
    ∀ (fuel : Nat) (s : SceneState),
      (recordPlayIter dt fuel s).2 ≤ fuel ∧
      (recordPlayIter dt fuel s).1
        = (recordBody dt)^[(recordPlayIter dt fuel s).2] s ∧
      ((recordPlayIter dt fuel s).1.anims = [] ∨ (recordPlayIter dt fuel s).2 = fuel) ∧
      (∀ m, m < (recordPlayIter dt fuel s).2 → ((recordBody dt)^[m] s).anims ≠ [])
  | 0, s => by
      refine ⟨le_refl 0, rfl, Or.inr rfl, ?_⟩
      intro m hm
      exact absurd hm (Nat.not_lt_zero m)
  | fuel + 1, s => by
      rw [recordPlayIter]
      by_cases h : s.anims = []
      · rw [if_pos h]
        refine ⟨Nat.zero_le _, rfl, Or.inl h, ?_⟩
        intro m hm
        exact absurd hm (Nat.not_lt_zero m)
      · rw [if_neg h]
        obtain ⟨h1, h2, h3, h4⟩ := recordPlayIter_spec dt fuel (recordBody dt s)
        refine ⟨?_, ?_, ?_, ?_⟩
        · show (recordPlayIter dt fuel (recordBody dt s)).2 + 1 ≤ fuel + 1
          omega
        · show (recordPlayIter dt fuel (recordBody dt s)).1
            = (recordBody dt)^[(recordPlayIter dt fuel (recordBody dt s)).2 + 1] s
          rw [Function.iterate_succ_apply]
          exact h2
        · show (recordPlayIter dt fuel (recordBody dt s)).1.anims = [] ∨
            (recordPlayIter dt fuel (recordBody dt s)).2 + 1 = fuel + 1
          rcases h3 with h3 | h3
          · exact Or.inl h3
          · exact Or.inr (by rw [h3])
        · intro m hm
          have hm2 : m < (recordPlayIter dt fuel (recordBody dt s)).2 + 1 := hm
          show ((recordBody dt)^[m] s).anims ≠ []
          cases m with
          | zero => simpa using h
          | succ m =>
              rw [Function.iterate_succ_apply]
              exact h4 m (by omega)

theorem recStart_recording (s : SceneState) : s.recStart.recording = true := rfl

theorem recStart_frames (s : SceneState) : s.recStart.frames = [] := rfl

theorem record_state (s : SceneState) (fname : Nat) (d : ℚ) (fps : Nat) :
    (s.record fname d fps).1
      = { ((recordBody (1 / (fps : ℚ)))^[⌊d * (fps : ℚ)⌋.toNat] s.recStart) with
          recording := false } := by
  simp only [SceneState.record]
  rw [save_gif_fst]

theorem record_write (s : SceneState) (fname : Nat) (d : ℚ) (fps : Nat) :
    (s.record fname d fps).2
      = (((recordBody (1 / (fps : ℚ)))^[⌊d * (fps : ℚ)⌋.toNat] s.recStart).save_gif
          fname fps).2 := by
  simp only [SceneState.record]

theorem record_play_state (s : SceneState) (fname fps : Nat) :
    (s.record_play fname fps).1
      = { extraIter fps (recordPlayIter (1 / (fps : ℚ)) 300 s.recStart).1 with
          recording := false } := by
  simp only [SceneState.record_play]
  rw [save_gif_fst]

/-- The whole frame buffer written by one `record` call is retained on the
scene after the call: its length is exactly `int(duration * fps)`. -/
theorem record_frames_length (s : SceneState) (fname : Nat) (d : ℚ) (fps : Nat) :
    (s.record fname d fps).1.frames.length = ⌊d * (fps : ℚ)⌋.toNat := by
  rw [record_state]
  show ((recordBody (1 / (fps : ℚ)))^[⌊d * (fps : ℚ)⌋.toNat] s.recStart).frames.length
    = ⌊d * (fps : ℚ)⌋.toNat
  rw [(recordBody_iterate _ _ s.recStart (recStart_recording s)).2, recStart_frames]
  simp

/-! Claim theorems. -/

/-- A concrete reachable scene for C1: two vector animations are registered
(ids 1 then 2, durations 1 and 2), and one update of 1 second finishes and
removes animation 1 while animation 2 stays active. -/
def sceneC1 : SceneState :=
  ((scene0.add_animation 1
      { kind := AnimKind.vector 10, duration := 1, elapsed := 0 }).add_animation 2
      { kind := AnimKind.vector 11, duration := 2, elapsed := 0 }).update 1

/-- C1 counterexample: on `sceneC1` the original registration order is
[1, 2] and the active list is [2]; replay yields the active list [2, 1], so
the restored active set equals the original set by identity but does NOT
preserve the original registration order. -/
theorem C1_counterexample :
    sceneC1.orig_anims = [1, 2] ∧
    sceneC1.anims = [2] ∧
    sceneC1.replay.anims = [2, 1] ∧
    sceneC1.replay.anims ≠ sceneC1.orig_anims := by
  have h1 : sceneC1.orig_anims = [1, 2] := by decide
  have h2 : sceneC1.anims = [2] := by
    simp [sceneC1, SceneState.update, updatePass, scene0, SceneState.add_animation,
          setStore, Animation.update, Animation.is_finished]
  have h3 : sceneC1.replay.anims = [2, 1] := by
    show (restoreOriginals sceneC1.orig_anims
      (resetAll sceneC1.anims sceneC1.store) sceneC1.anims).2 = [2, 1]
    rw [h1, h2]
    simp [restoreOriginals]
  refine ⟨h1, h2, h3, ?_⟩
  rw [h1, h3]
  decide

/-- C1 amended: replay resets every animation of the active set and every
animation of the original set to idle (progress zero), restores the active
set to be the surviving active animations in their current order followed by
the previously removed originals in original registration order (hence equal
to the original set by identity whenever the active set is contained in it,
but not necessarily in the original order), stops then plays the timeline
(elapsed time zero, mode playing), and clears the paused flag. -/
theorem C1_replay_amended (s : SceneState) (h : s.orig_anims.Nodup) :
    s.replay.anims
      = s.anims ++ s.orig_anims.filter (fun i => decide (i ∉ s.anims)) ∧
    (∀ j ∈ s.anims, (s.replay.store j).elapsed = 0) ∧
    (∀ j ∈ s.orig_anims, (s.replay.store j).elapsed = 0) ∧
    s.replay.timeline.current_time = 0 ∧
    s.replay.timeline.mode = TimelineMode.playing ∧
    s.replay.paused = false := by
  have hinv : ∀ j ∈ s.anims, (resetAll s.anims s.store j).elapsed = 0 := by
    intro j hj
    rw [resetAll_apply]
    simp [hj, Animation.reset_elapsed]
  refine ⟨?_, ?_, ?_, rfl, rfl, rfl⟩
  · exact restoreOriginals_filter s.orig_anims _ s.anims h
  · intro j hj
    exact restoreOriginals_elapsed s.orig_anims _ s.anims hinv j
      (restoreOriginals_mem_acc _ _ _ j hj)
  · intro j hj
    exact restoreOriginals_elapsed s.orig_anims _ s.anims hinv j
      (restoreOriginals_mem_orig _ _ _ j hj)

/-- Witness for the amended C1 at the concrete scene `sceneC1`. -/
theorem C1_replay_amended_witness :
    sceneC1.orig_anims.Nodup ∧
    sceneC1.replay.anims
      = sceneC1.anims
        ++ sceneC1.orig_anims.filter (fun i => decide (i ∉ sceneC1.anims)) ∧
    (sceneC1.replay.store 1).elapsed = 0 ∧
    (sceneC1.replay.store 2).elapsed = 0 := by
  have h := C1_replay_amended sceneC1 (by decide)
  exact ⟨by decide, h.1,
    h.2.2.1 1 (by decide),
    h.2.2.1 2 (by decide)⟩

/-- C6: for every Scene, adding an already-present entity leaves the whole
scene state unchanged (so in particular entity count and draw order are
unchanged), while adding a not-yet-present entity appends it to the end of
the draw order and sets its back-reference to this scene, leaving the other
back-references untouched. -/
theorem C6_add_idempotent :
    (∀ (s : SceneState) (e : Nat), e ∈ s.objects → s.add [e] = s) ∧
    (∀ (s : SceneState) (e : Nat), e ∉ s.objects →
      (s.add [e]).objects = s.objects ++ [e] ∧
      (s.add [e]).backref e = true ∧
      (∀ j, j ≠ e → (s.add [e]).backref j = s.backref j)) := by
  constructor
  · intro s e he
    simp [SceneState.add, he]
  · intro s e he
    refine ⟨?_, ?_, ?_⟩
    · simp [SceneState.add, he]
    · simp [SceneState.add, he]
    · intro j hj
      simp [SceneState.add, he, hj]

/-- Witness for C6 at concrete scenes: adding entity 7 twice to a fresh
scene keeps one copy, and the second add changes nothing. -/
theorem C6_add_idempotent_witness :
    7 ∉ scene0.objects ∧
    (scene0.add [7]).objects = [7] ∧
    7 ∈ (scene0.add [7]).objects ∧
    (scene0.add [7]).add [7] = scene0.add [7] := by
  refine ⟨by decide, ?_, ?_, ?_⟩
  · exact ((C6_add_idempotent.2 scene0 7 (by decide)).1).trans (by decide)
  · have h := (C6_add_idempotent.2 scene0 7 (by decide)).1
    rw [h]; decide
  · exact C6_add_idempotent.1 (scene0.add [7]) 7
      (by have h := (C6_add_idempotent.2 scene0 7 (by decide)).1
          rw [h]; decide)

/-- C7 counterexample: constructing a scene with dimensionality 2 but an
invalid viewport (width 0) succeeds without any configuration error, so the
viewport half of the claimed iff is false on the code; only a bad
dimensionality is rejected. -/
theorem C7_counterexample :
    (mkScene 2 0 600).isOk = true ∧ (mkScene 5 800 600).isOk = false := by
  constructor
  · rfl
  · rfl

/-- C7 amended: construction raises a configuration error iff the
dimensionality is outside {2, 3}; the viewport size is never validated. -/
theorem C7_mkScene_error_iff (dim : Nat) (width height : Int) :
    (mkScene dim width height).isOk = true ↔ (dim = 2 ∨ dim = 3) := by
  unfold mkScene
  by_cases h : dim = 2 ∨ dim = 3
  · simp [h, Except.isOk, Except.toBool]
  · simp [h, Except.isOk, Except.toBool]

/-- C8: with an empty captured-frame buffer the export is a silent no-op
(no write, scene unchanged); with at least one captured frame it writes all
frames at `1000 / fps` (integer division) milliseconds per frame and reports
the path and the frame count. -/
theorem C8_save_gif_no_op_or_write (s : SceneState) (fname fps : Nat) :
    (s.save_gif fname fps).1 = s ∧
    (s.frames = [] → (s.save_gif fname fps).2 = none) ∧
    (s.frames ≠ [] →
      ∃ w, (s.save_gif fname fps).2 = some w ∧
        w.duration_ms = 1000 / fps ∧
        w.filename = fname ∧
        w.frames = s.frames ∧
        w.loopForever = true) := by
  refine ⟨?_, ?_, ?_⟩
  · unfold SceneState.save_gif
    split <;> rfl
  · intro h
    simp [SceneState.save_gif, h]
  · intro h
    refine ⟨{ filename := fname, duration_ms := 1000 / fps,
              frames := s.frames, loopForever := true }, ?_, rfl, rfl, rfl, rfl⟩
    simp [SceneState.save_gif, h]

/-- Witness for C8: a fresh scene has no frames, so export writes nothing;
a scene with one captured frame yields a write at 100 ms per frame. -/
theorem C8_save_gif_witness :
    (scene0.save_gif 0 10).2 = none ∧
    (∃ w, (({ scene0 with frames := [[DrawCmd.flip]] }).save_gif 0 10).2 = some w ∧
      w.duration_ms = 1000 / 10 ∧
      w.filename = 0 ∧
      w.frames = [[DrawCmd.flip]] ∧
      w.loopForever = true) :=
  ⟨(C8_save_gif_no_op_or_write scene0 0 10).2.1 rfl,
   (C8_save_gif_no_op_or_write { scene0 with frames := [[DrawCmd.flip]] } 0 10).2.2
     (by decide)⟩

/-- C10: removing an entity that is not in the scene leaves the scene state
entirely unchanged; removing a present entity deletes exactly that entity
from the draw order, clears its back-reference, leaves every other entity's
back-reference alone, and leaves the animation lists, the animation store,
the timeline, the frames, and the paused flag unchanged. -/
theorem C10_remove_frame (s : SceneState) (e : Nat) :
    (e ∉ s.objects → s.remove e = s) ∧
    (e ∈ s.objects →
      (s.remove e).objects = s.objects.erase e ∧
      (s.remove e).backref e = false ∧
      (∀ j, j ≠ e → (s.remove e).backref j = s.backref j) ∧
      (s.remove e).anims = s.anims ∧
      (s.remove e).orig_anims = s.orig_anims ∧
      (s.remove e).store = s.store ∧
      (s.remove e).timeline = s.timeline ∧
      (s.remove e).frames = s.frames ∧
      (s.remove e).paused = s.paused) := by
  constructor
  · intro h
    simp [SceneState.remove, h]
  · intro h
    refine ⟨?_, ?_, ?_, ?_, ?_, ?_, ?_, ?_, ?_⟩ <;>
      simp [SceneState.remove, h]
    intro j hj
    simp [hj]

/-- Witness for C10: removing an absent entity from a fresh scene changes
nothing, and removing a present entity deletes it. -/
theorem C10_remove_frame_witness :
    scene0.remove 3 = scene0 ∧
    ((scene0.add [4]).remove 4).objects = [] := by
  constructor
  · exact (C10_remove_frame scene0 3).1 (by decide)
  · have h := ((C10_remove_frame (scene0.add [4]) 4).2 (by decide)).1
    rw [h]; decide

/-- C2: the record_play capture loop advances state with the fixed delta
1 / fps each iteration (the iterated loop body), runs for some n ≤ 300
iterations, keeps running only while the active-animation set is non-empty,
stops once it is empty or the 300-frame safety cap is hit, then appends
exactly fps additional frames rendered from the final state without
advancing it; the whole call therefore captures n + fps ≤ 300 + fps frames
and always terminates. -/
theorem C2_record_play_cap (s : SceneState) (fname fps : Nat) (_hfps : 0 < fps) :
    ∃ n, n ≤ 300 ∧
      (∀ m, m < n → ((recordBody (1 / (fps : ℚ)))^[m] s.recStart).anims ≠ []) ∧
      (((recordBody (1 / (fps : ℚ)))^[n] s.recStart).anims = [] ∨ n = 300) ∧
      (s.record_play fname fps).1.frames
        = ((recordBody (1 / (fps : ℚ)))^[n] s.recStart).frames
          ++ List.replicate fps (((recordBody (1 / (fps : ℚ)))^[n] s.recStart).render) ∧
      ((recordBody (1 / (fps : ℚ)))^[n] s.recStart).frames.length = n ∧
      (s.record_play fname fps).1.frames.length = n + fps ∧
      n + fps ≤ 300 + fps := by
  obtain ⟨h1, h2, h3, h4⟩ := recordPlayIter_spec (1 / (fps : ℚ)) 300 s.recStart
  set n := (recordPlayIter (1 / (fps : ℚ)) 300 s.recStart).2 with hn
  rw [h2] at h3
  have hrec : (recordPlayIter (1 / (fps : ℚ)) 300 s.recStart).1.recording = true := by
    rw [h2]
    exact (recordBody_iterate _ n s.recStart (recStart_recording s)).1
  have hlen : ((recordBody (1 / (fps : ℚ)))^[n] s.recStart).frames.length = n := by
    rw [(recordBody_iterate _ n s.recStart (recStart_recording s)).2, recStart_frames]
    simp
  have hframes : (s.record_play fname fps).1.frames
      = ((recordBody (1 / (fps : ℚ)))^[n] s.recStart).frames
        ++ List.replicate fps (((recordBody (1 / (fps : ℚ)))^[n] s.recStart).render) := by
    rw [record_play_state s fname fps, extraIter_spec fps _ hrec, h2]
  refine ⟨n, h1, h4, h3, hframes, hlen, ?_, by omega⟩
  rw [hframes, List.length_append, List.length_replicate, hlen]

/-- Witness for C2 at a fresh scene with fps 2: the capture terminates with
at most 302 frames. -/
theorem C2_record_play_cap_witness :
    0 < 2 ∧ (scene0.record_play 0 2).1.frames.length ≤ 302 := by
  refine ⟨by decide, ?_⟩
  obtain ⟨n, hn, _, _, _, _, hlen, hcap⟩ := C2_record_play_cap scene0 0 2 (by decide)
  omega

/-- C9 counterexample: after `record` (here: duration 1 at 1 fps on a fresh
scene) returns, the written frame is still retained in the scene's frame
buffer (the buffer is not released), although the artifact was written. -/
theorem C9_counterexample :
    (scene0.record 0 1 1).1.frames.length = 1 ∧
    (scene0.record 0 1 1).1.frames ≠ [] ∧
    (scene0.record 0 1 1).2.isSome = true := by
  have hfloor : ⌊(1 : ℚ) * ((1 : Nat) : ℚ)⌋.toNat = 1 := by norm_num
  have hlen : (scene0.record 0 1 1).1.frames.length = 1 := by
    rw [record_frames_length scene0 0 1 1, hfloor]
  refine ⟨hlen, ?_, ?_⟩
  · intro hnil
    rw [hnil] at hlen
    simp at hlen
  · rw [record_write scene0 0 1 1]
    apply save_gif_snd_some
    apply List.length_pos.mp
    rw [(recordBody_iterate _ _ scene0.recStart (recStart_recording scene0)).2,
      recStart_frames, hfloor]
    simp

/-- C9 amended: the capture buffer is cleared at the start of each capture
session, not after the artifact is written: after `record` returns the
scene still retains exactly the int(duration * fps) frames captured in that
session, and after `record_play` returns it retains at least the fps
trailing frames of that session. -/
theorem C9_buffer_retained :
    (∀ (s : SceneState) (fname : Nat) (d : ℚ) (fps : Nat),
      (s.record fname d fps).1.frames.length = ⌊d * (fps : ℚ)⌋.toNat) ∧
    (∀ (s : SceneState) (fname fps : Nat),
      fps ≤ (s.record_play fname fps).1.frames.length) := by
  refine ⟨record_frames_length, ?_⟩
  intro s fname fps
  obtain ⟨h1, h2, h3, h4⟩ := recordPlayIter_spec (1 / (fps : ℚ)) 300 s.recStart
  have hrec : (recordPlayIter (1 / (fps : ℚ)) 300 s.recStart).1.recording = true := by
    rw [h2]
    exact (recordBody_iterate _ _ s.recStart (recStart_recording s)).1
  rw [record_play_state s fname fps, extraIter_spec fps _ hrec]
  simp

/-! Lemmas about the render dispatch. -/

/-- Normal form of the render pass for either dimensionality. -/
theorem render_eq (s : SceneState) :
    s.render
      = [DrawCmd.clear, if s.dim = 2 then DrawCmd.setup2d else DrawCmd.setup3d]
        ++ (if s.show_grid then [DrawCmd.grid] else [])
        ++ (s.anims.filter (isGridAnim s.store)).map DrawCmd.transformedGrid
        ++ s.objects.map (drawObj s)
        ++ [DrawCmd.controlsHint s.paused, DrawCmd.flip] := by
  unfold SceneState.render SceneState.render2d SceneState.render3d
  split <;> simp

/-- The entity a draw command draws, when it is an entity draw. -/
def entityOf : DrawCmd → Option Nat
  | DrawCmd.vectorStatic o => some o
  | DrawCmd.vectorAnimated o _ => some o
  | _ => none

theorem drawObj_of_none (s : SceneState) (o : Nat)
    (h : findActiveVecAnim s o = none) :
    drawObj s o = DrawCmd.vectorStatic o := by
  unfold drawObj
  rw [h]

theorem drawObj_of_some (s : SceneState) (o i : Nat)
    (h : findActiveVecAnim s o = some i) :
    drawObj s o
      = if (s.store i).is_finished then DrawCmd.vectorStatic o
        else DrawCmd.vectorAnimated o i := by
  unfold drawObj
  rw [h]

theorem entityOf_drawObj (s : SceneState) (o : Nat) :
    entityOf (drawObj s o) = some o := by
  rcases h : findActiveVecAnim s o with _ | i
  · rw [drawObj_of_none s o h]
    rfl
  · rw [drawObj_of_some s o i h]
    split <;> rfl

theorem drawObj_ne_transformedGrid (s : SceneState) (o a : Nat) :
    drawObj s o ≠ DrawCmd.transformedGrid a := by
  intro h
  have he := entityOf_drawObj s o
  rw [h] at he
  simp [entityOf] at he

theorem drawObj_ne_grid (s : SceneState) (o : Nat) :
    drawObj s o ≠ DrawCmd.grid := by
  intro h
  have he := entityOf_drawObj s o
  rw [h] at he
  simp [entityOf] at he

theorem drawObj_ne_flip (s : SceneState) (o : Nat) :
    drawObj s o ≠ DrawCmd.flip := by
  intro h
  have he := entityOf_drawObj s o
  rw [h] at he
  simp [entityOf] at he

theorem drawObj_eq_animated_iff (s : SceneState) (o e a : Nat) :
    drawObj s o = DrawCmd.vectorAnimated e a
      ↔ (o = e ∧ findActiveVecAnim s o = some a ∧
          (s.store a).is_finished = false) := by
  rcases h : findActiveVecAnim s o with _ | i
  · rw [drawObj_of_none s o h]
    constructor
    · intro hd
      simp at hd
    · rintro ⟨_, hia, _⟩
      simp at hia
  · rw [drawObj_of_some s o i h]
    by_cases hf : (s.store i).is_finished = true
    · rw [if_pos hf]
      constructor
      · intro hd
        simp at hd
      · rintro ⟨_, hia, hfin⟩
        rw [← Option.some.inj hia, hf] at hfin
        exact absurd hfin (by decide)
    · rw [if_neg hf]
      simp only [Bool.not_eq_true] at hf
      constructor
      · intro hd
        obtain ⟨ho, ha⟩ := DrawCmd.vectorAnimated.inj hd
        subst ho
        subst ha
        exact ⟨rfl, rfl, hf⟩
      · rintro ⟨rfl, hia, _⟩
        rw [Option.some.inj hia]

theorem drawObj_eq_static_iff (s : SceneState) (o e : Nat) :
    drawObj s o = DrawCmd.vectorStatic e
      ↔ (o = e ∧ ¬ ∃ a, findActiveVecAnim s o = some a ∧
          (s.store a).is_finished = false) := by
  rcases h : findActiveVecAnim s o with _ | i
  · rw [drawObj_of_none s o h]
    constructor
    · intro hd
      refine ⟨DrawCmd.vectorStatic.inj hd, ?_⟩
      rintro ⟨a, hia, _⟩
      simp at hia
    · rintro ⟨rfl, _⟩
      rfl
  · rw [drawObj_of_some s o i h]
    by_cases hf : (s.store i).is_finished = true
    · rw [if_pos hf]
      constructor
      · intro hd
        refine ⟨DrawCmd.vectorStatic.inj hd, ?_⟩
        rintro ⟨a, hia, hfin⟩
        rw [← Option.some.inj hia, hf] at hfin
        exact absurd hfin (by decide)
      · rintro ⟨rfl, _⟩
        rfl
    · rw [if_neg hf]
      simp only [Bool.not_eq_true] at hf
      constructor
      · intro hd
        simp at hd
      · rintro ⟨rfl, hno⟩
        exact absurd ⟨i, rfl, hf⟩ hno

theorem filterMap_entityOf_mapTG (l : List Nat) :
    (l.map DrawCmd.transformedGrid).filterMap entityOf = [] := by
  induction l with
  | nil => rfl
  | cons x rest ih => simp [entityOf, ih]

theorem filterMap_entityOf_mapObj (s : SceneState) (l : List Nat) :
    (l.map (drawObj s)).filterMap entityOf = l := by
  induction l with
  | nil => rfl
  | cons x rest ih => simp [entityOf_drawObj, ih]

theorem filterMap_entityOf_compTG (l : List Nat) :
    l.filterMap (entityOf ∘ DrawCmd.transformedGrid) = [] := by
  induction l with
  | nil => rfl
  | cons x rest ih => simp [entityOf, Function.comp, ih]

theorem filterMap_entityOf_compObj (s : SceneState) (l : List Nat) :
    l.filterMap (entityOf ∘ drawObj s) = l := by
  induction l with
  | nil => rfl
  | cons x rest ih => simp [Function.comp, entityOf_drawObj, ih]

theorem count_flip_mapTG (l : List Nat) :
    (l.map DrawCmd.transformedGrid).count DrawCmd.flip = 0 := by
  rw [List.count_eq_zero]
  intro h
  simp [List.mem_map] at h

theorem count_flip_mapObj (s : SceneState) (l : List Nat) :
    (l.map (drawObj s)).count DrawCmd.flip = 0 := by
  rw [List.count_eq_zero]
  intro h
  simp only [List.mem_map] at h
  obtain ⟨o, _, ho⟩ := h
  exact drawObj_ne_flip s o ho

theorem mem_render_animated (s : SceneState) (e a : Nat) :
    DrawCmd.vectorAnimated e a ∈ s.render
      ↔ (e ∈ s.objects ∧ findActiveVecAnim s e = some a ∧
          (s.store a).is_finished = false) := by
  rw [render_eq]
  by_cases hdim : s.dim = 2 <;> by_cases hg : s.show_grid <;>
    simp [hdim, hg, List.mem_append, List.mem_map, drawObj_eq_animated_iff] <;>
    aesop

theorem mem_render_static (s : SceneState) (e : Nat) :
    DrawCmd.vectorStatic e ∈ s.render
      ↔ (e ∈ s.objects ∧ ¬ ∃ a, findActiveVecAnim s e = some a ∧
          (s.store a).is_finished = false) := by
  rw [render_eq]
  by_cases hdim : s.dim = 2 <;> by_cases hg : s.show_grid <;>
    simp [hdim, hg, List.mem_append, List.mem_map, drawObj_eq_static_iff] <;>
    aesop

theorem mem_render_transformedGrid (s : SceneState) (a : Nat) :
    DrawCmd.transformedGrid a ∈ s.render
      ↔ (a ∈ s.anims ∧ isGridAnim s.store a = true) := by
  rw [render_eq]
  by_cases hdim : s.dim = 2 <;> by_cases hg : s.show_grid <;>
    simp [hdim, hg, List.mem_append, List.mem_map, List.mem_filter,
      drawObj_ne_transformedGrid]

theorem mem_render_grid (s : SceneState) :
    DrawCmd.grid ∈ s.render ↔ s.show_grid = true := by
  rw [render_eq]
  by_cases hdim : s.dim = 2 <;> by_cases hg : s.show_grid <;>
    simp [hdim, hg, List.mem_append, List.mem_map, drawObj_ne_grid]

theorem render_count_flip (s : SceneState) :
    (s.render).count DrawCmd.flip = 1 := by
  rw [render_eq]
  by_cases hdim : s.dim = 2 <;> by_cases hg : s.show_grid <;>
    simp [hdim, hg, List.count_append, count_flip_mapTG, count_flip_mapObj]

theorem render_getLast (s : SceneState) :
    (s.render).getLast? = some DrawCmd.flip := by
  have hgen : ∀ (l : List DrawCmd) (c : DrawCmd),
      (l ++ [c, DrawCmd.flip]).getLast? = some DrawCmd.flip := by
    intro l c
    rw [show l ++ [c, DrawCmd.flip] = (l ++ [c]) ++ [DrawCmd.flip] by simp]
    exact List.getLast?_concat _
  rw [render_eq]
  exact hgen _ _

/-- A concrete scene for C3: entity 5 with two active VectorAnimations
targeting it — the first (id 1) already finished, the second (id 2) still
running — plus a finished but still active GridTransformAnimation (id 3).
Such states are reachable because the keyboard step (`Scene._step`) advances
animations without removing finished ones from the active list. -/
def sceneC3 : SceneState :=
  { scene0 with
      objects := [5]
      anims := [1, 2, 3]
      orig_anims := [1, 2, 3]
      store := fun i =>
        if i = 1 then { kind := AnimKind.vector 5, duration := 1, elapsed := 1 }
        else if i = 2 then { kind := AnimKind.vector 5, duration := 2, elapsed := 1 }
        else if i = 3 then
          { kind := AnimKind.gridTransform, duration := 1, elapsed := 1 }
        else { kind := AnimKind.gridTransform, duration := 0, elapsed := 0 } }

/-- C3 counterexample: on `sceneC3` an active, unfinished VectorAnimation
(id 2) targets entity 5, yet render issues the static draw for entity 5 and
no animated draw (the dispatch only examines the FIRST targeting animation,
id 1, which is finished); and the finished GridTransformAnimation 3 still
gets a transformed-grid draw, next to the static grid — both against the
claimed iff-dispatch. -/
theorem C3_counterexample :
    (2 ∈ sceneC3.anims ∧ vecTargets sceneC3.store 5 2 = true ∧
      (sceneC3.store 2).is_finished = false ∧ 5 ∈ sceneC3.objects) ∧
    sceneC3.render
      = [DrawCmd.clear, DrawCmd.setup2d, DrawCmd.grid, DrawCmd.transformedGrid 3,
         DrawCmd.vectorStatic 5, DrawCmd.controlsHint false, DrawCmd.flip] ∧
    (sceneC3.store 3).is_finished = true := by
  decide

/-- C3 amended: entities are drawn in insertion order with exactly one draw
per entity; an entity is drawn with the animated call iff the FIRST active
VectorAnimation targeting it exists and is unfinished (a later unfinished
animation behind a finished one does not fire), and with the static call
otherwise; a transformed-grid draw is issued for every active
GridTransformAnimation whether finished or not, while the static grid is
drawn whenever grid display is on (not exclusively); and exactly one buffer
flip is issued, as the last command of the pass. -/
theorem C3_render_dispatch (s : SceneState) :
    (s.render).filterMap entityOf = s.objects ∧
    (∀ e a : Nat, DrawCmd.vectorAnimated e a ∈ s.render
      ↔ (e ∈ s.objects ∧ findActiveVecAnim s e = some a ∧
          (s.store a).is_finished = false)) ∧
    (∀ e : Nat, DrawCmd.vectorStatic e ∈ s.render
      ↔ (e ∈ s.objects ∧ ¬ ∃ a, findActiveVecAnim s e = some a ∧
          (s.store a).is_finished = false)) ∧
    (∀ a : Nat, DrawCmd.transformedGrid a ∈ s.render
      ↔ (a ∈ s.anims ∧ isGridAnim s.store a = true)) ∧
    (DrawCmd.grid ∈ s.render ↔ s.show_grid = true) ∧
    (s.render).count DrawCmd.flip = 1 ∧
    (s.render).getLast? = some DrawCmd.flip := by
  have horder : (s.render).filterMap entityOf = s.objects := by
    rw [render_eq]
    by_cases hdim : s.dim = 2 <;> by_cases hg : s.show_grid <;>
      simp [hdim, hg, List.filterMap_append, filterMap_entityOf_mapTG,
        filterMap_entityOf_mapObj, filterMap_entityOf_compTG,
        filterMap_entityOf_compObj, entityOf]
  exact ⟨horder, fun e a => mem_render_animated s e a,
    fun e => mem_render_static s e,
    fun a => mem_render_transformedGrid s a,
    mem_render_grid s, render_count_flip s, render_getLast s⟩

/-! Operation-order traces for the temporal claim. -/

/-- Observable state-mutation events of one frame, in program order:
a Timeline advance, a single Animation advance, a removal of a finished
Animation from the active list, and the render pass. -/
inductive Ev
  | timelineAdv
  | animAdv (i : Nat)
  | animRemove (i : Nat)
  | renderEv
deriving DecidableEq

/-- The event order of Scene._update(dt): nothing while paused; otherwise
the timeline advance, then one advance per active animation in list order,
then the removal of each collected finished animation. -/
def update_trace (s : SceneState) (dt : ℚ) : List Ev :=
  if s.paused then []
  else
    Ev.timelineAdv :: (s.anims.map Ev.animAdv
      ++ (updatePass s.anims s.store dt []).2.map Ev.animRemove)

/-- The event order of Scene._step(dt): the timeline advance, then one
advance per active animation in list order; no removals. -/
def step_trace (s : SceneState) : List Ev :=
  Ev.timelineAdv :: s.anims.map Ev.animAdv

/-- One iteration of the interactive loop along the plain path:
`self._update(dt)` then `self._render()`. -/
def update_frame_trace (s : SceneState) (dt : ℚ) : List Ev :=
  update_trace s dt ++ [Ev.renderEv]

/-- One iteration of the interactive loop along the explicit-step path
(right-arrow): the handler sets paused and runs `self._step(step_size)`,
then the loop body's `self._update(dt)` (a no-op, since paused) and
`self._render()`. -/
def step_frame_trace (s : SceneState) (dt : ℚ) : List Ev :=
  step_trace s
    ++ update_trace (SceneState.step { s with paused := true } s.step_size) dt
    ++ [Ev.renderEv]

/-- Whether an event is an Animation advance or removal. -/
def isAnimEv : Ev → Prop
  | Ev.animAdv _ => True
  | Ev.animRemove _ => True
  | _ => False

/-- C5: in each single frame, along both the interactive update path and the
explicit keyboard-step path, the trace is exactly one timeline advance,
followed only by animation advances and removals, followed by the render as
the very last event (or, when paused, a bare render) — so the timeline
advances strictly before any animation and every animation advance and
active-set mutation happens before the render. -/
theorem C5_step_ordering (s : SceneState) (dt : ℚ) :
    ((∃ mid, update_frame_trace s dt = Ev.timelineAdv :: (mid ++ [Ev.renderEv]) ∧
        ∀ e ∈ mid, isAnimEv e) ∨
      update_frame_trace s dt = [Ev.renderEv]) ∧
    (∃ mid, step_frame_trace s dt = Ev.timelineAdv :: (mid ++ [Ev.renderEv]) ∧
        ∀ e ∈ mid, isAnimEv e) := by
  constructor
  · by_cases hp : s.paused = true
    · right
      simp [update_frame_trace, update_trace, hp]
    · left
      refine ⟨s.anims.map Ev.animAdv
        ++ (updatePass s.anims s.store dt []).2.map Ev.animRemove, ?_, ?_⟩
      · simp [update_frame_trace, update_trace, hp]
      · intro e he
        rcases List.mem_append.mp he with h | h <;>
          obtain ⟨i, _, rfl⟩ := List.mem_map.mp h <;> trivial
  · refine ⟨s.anims.map Ev.animAdv, ?_, ?_⟩
    · have hp : (SceneState.step { s with paused := true } s.step_size).paused = true := rfl
      simp [step_frame_trace, step_trace, update_trace, hp]
    · intro e he
      obtain ⟨i, _, rfl⟩ := List.mem_map.mp he
      trivial

end LinalgViz
